import Mathlib

/-!
# Shallow embedding of the x402scan-mcp payment/authentication engines

This development embeds, in Lean, the protocol-handling core of the
repository:

* `src/x402/protocol.ts` (and its twin `src/x402/normalize.ts`, textually
  identical logic): `isV1Response`, `normalizeV1Requirement`,
  `normalizeV2Requirement`, `normalizePaymentRequired`, `extractV1Schema`;
* `src/networks.ts`: `toCaip2`;
* `src/x402/client.ts`: the requirement-selection lambda of `createClient`,
  `makeRequest`, `queryEndpoint`;
* `src/tools/auth.ts`: the `authed_call` handler.

Modelling conventions:

* JavaScript values that may be absent are `Option`; JS string truthiness
  (`""` falsy, absent falsy) is the `truthy` predicate; JS object-typed
  fields are truthy exactly when present (`Option.isSome`).
* JS objects used as header maps are association lists with
  insertion-order update semantics (`hset` / `hmerge` model object
  literal spread `{a, ...m1, ...m2}`, later keys overriding earlier ones
  in place); header keys are compared exactly as the source does.
* Exceptions are `Except String`; a `throw` is `.error`, a `try/catch`
  is a `match` on the `Except`.
* The external collaborators (`fetch`, `@x402/core`'s
  `getPaymentRequiredResponse` / `createPaymentPayload` /
  `encodePaymentSignatureHeader` / `getPaymentSettleResponse`, the
  vendored `createSIWxPayload` / `encodeSIWxHeader`, `getWallet`) are
  abstracted as environment fields giving the outcome each call would
  have in the one execution being modelled; bodies and payloads are
  opaque `String` tokens.
* The engines are instrumented with a trace recording the facts the
  specification speaks about (whether a second request was issued and
  with which headers, whether the signing capability was invoked);
  the trace mirrors exactly the order of operations of the source.
-/

/-! ## JS-semantics helpers -/

/-- JS string truthiness of a possibly-absent string field:
absent and `""` are falsy. -/
def truthy : Option String → Bool
  | none => false
  | some s => !(s == "")

/-- JS `a || b` for strings: `a` when truthy, else `b`. -/
def jsOr (a b : String) : String :=
  if a == "" then b else a

/-- Character-level prefix test modelling JS
`String.prototype.startsWith` (the built-in `String.startsWith` is not
kernel-computable). -/
def strStartsWith (s pre : String) : Bool :=
  pre.data.isPrefixOf s.data

/-- ASCII upper-casing modelling JS `String.prototype.toUpperCase` on
the method names the source handles. -/
def strToUpper (s : String) : String :=
  String.mk (s.data.map Char.toUpper)

/-- ASCII lower-casing modelling JS `String.prototype.toLowerCase`. -/
def strToLower (s : String) : String :=
  String.mk (s.data.map Char.toLower)

/-- Occurrence of `t` in a character list. -/
def containsSub (t : List Char) : List Char → Bool
  | [] => t.isEmpty
  | a :: rest => if t.isPrefixOf (a :: rest) then true else containsSub t rest

/-- Substring test modelling JS `String.prototype.includes`. -/
def strIncludes (s t : String) : Bool :=
  containsSub t.data s.data

/-- A JS object viewed as an ordered association list (string keys). -/
abbrev HMap := List (String × String)

/-- Assign a key in a JS object: update in place if the key exists,
append otherwise (object literal / spread semantics). -/
def hset : HMap → String → String → HMap
  | [], k, v => [(k, v)]
  | p :: m, k, v => if p.1 == k then (k, v) :: m else p :: hset m k v

/-- Spread `{...base, ...upd}`: assign every pair of `upd` into `base`
in order. -/
def hmerge (base upd : HMap) : HMap :=
  upd.foldl (fun acc p => hset acc p.1 p.2) base

/-- Read a key of a JS object. -/
def hget : HMap → String → Option String
  | [], _ => none
  | p :: m, k => if p.1 == k then some p.2 else hget m k

/-- JS `k in obj`. -/
def hasKey (m : HMap) (k : String) : Bool :=
  (hget m k).isSome

/-- `Array.prototype.map` over a throwing callback: stops at the first
exception, exactly like JS `.map` with a throwing function. -/
def mapExcept (f : α → Except String β) : List α → Except String (List β)
  | [] => .ok []
  | a :: l =>
    match f a with
    | .error e => .error e
    | .ok b =>
      match mapExcept f l with
      | .error e => .error e
      | .ok bs => .ok (b :: bs)

/-! ## Data model (src/x402/protocol.ts) -/

/-- Opaque extra/metadata payloads (`extra`, `queryParams`, `body`,
`bodyFields`, `headers`, `output` objects). -/
abbrev ExtraMap := List (String × String)

/-- The `info` object of the vendored sign-in-with-x extension
(`SIWxExtensionInfo`); every field may be absent at runtime. -/
structure SIWxExtensionInfo where
  domain : Option String := none
  uri : Option String := none
  version : Option String := none
  chainId : Option String := none
  nonce : Option String := none
  issuedAt : Option String := none
  expirationTime : Option String := none
  statement : Option String := none
deriving Repr, DecidableEq

/-- A value of the open-ended `extensions` map; the engine only ever
reads its `info` member, everything else is opaque. -/
structure ExtValue where
  info : Option SIWxExtensionInfo := none
deriving Repr, DecidableEq

/-- Top-level `resource` descriptor of the v2 wire format. -/
structure ResourceInfo where
  url : String
  description : String
  mimeType : String
deriving Repr, DecidableEq

/-- One raw `accepts` entry as it arrives off the wire, covering both
the v1 shape (`maxAmountRequired`, embedded display fields) and the v2
shape (`amount`).  `none` models an absent key. -/
structure RawRequirement where
  scheme : String := ""
  network : String := ""
  maxAmountRequired : Option String := none
  amount : Option String := none
  resource : Option String := none
  description : Option String := none
  mimeType : Option String := none
  payTo : String := ""
  maxTimeoutSeconds : Int := 0
  asset : String := ""
  extra : Option ExtraMap := none
deriving Repr, DecidableEq

/-- A raw `PaymentRequired` body (object case; `isV1Response` returns
`false` outright on non-objects, which the claims do not touch). -/
structure RawPaymentRequired where
  x402Version : Option Int := none
  error : Option String := none
  accepts : List RawRequirement := []
  resource : Option ResourceInfo := none
  extensions : Option (List (String × ExtValue)) := none
deriving Repr, DecidableEq

/-- `NormalizedRequirement` of src/x402/protocol.ts. -/
structure NormalizedRequirement where
  scheme : String
  network : String
  amount : String
  asset : String
  payTo : String
  maxTimeoutSeconds : Int
  extra : Option ExtraMap
  resource : Option String
  description : Option String
  mimeType : Option String
deriving Repr, DecidableEq

/-- `NormalizedPaymentRequired` of src/x402/protocol.ts. -/
structure NormalizedPaymentRequired where
  x402Version : Int
  error : Option String
  accepts : List NormalizedRequirement
  resource : Option ResourceInfo := none
  extensions : Option (List (String × ExtValue)) := none
deriving Repr, DecidableEq

/-! ## Version classification and normalization
(`isV1Response`, `normalizePaymentRequired`; the logic is byte-identical
between src/x402/protocol.ts and src/x402/normalize.ts) -/

/-- Whether the first `accepts` entry carries the `maxAmountRequired`
key (`'maxAmountRequired' in accepts[0]`). -/
def firstHasLegacyKey : List RawRequirement → Bool
  | [] => false
  | first :: _ => first.maxAmountRequired.isSome

/-- `isV1Response` (src/x402/protocol.ts lines 46-55): v1 when
`x402Version === 1`, else decided by the shape of the first entry. -/
def isV1Response (pr : RawPaymentRequired) : Bool :=
  if pr.x402Version == some 1 then true
  else firstHasLegacyKey pr.accepts

/-- The success branch of `normalizeV1Requirement`: rename
`maxAmountRequired` to `amount`, preserve the v1 display fields. -/
def v1body (req : RawRequirement) : NormalizedRequirement :=
  { scheme := req.scheme
    network := req.network
    amount := req.maxAmountRequired.getD ""
    asset := req.asset
    payTo := req.payTo
    maxTimeoutSeconds := req.maxTimeoutSeconds
    extra := req.extra
    resource := req.resource
    description := req.description
    mimeType := req.mimeType }

/-- `normalizeV1Requirement` (src/x402/protocol.ts lines 57-73):
throws when `maxAmountRequired` is falsy. -/
def normalizeV1Requirement (req : RawRequirement) :
    Except String NormalizedRequirement :=
  if !truthy req.maxAmountRequired then
    .error "v1 requirement missing maxAmountRequired field"
  else
    .ok (v1body req)

/-- The success branch of `normalizeV2Requirement`: pass `amount`
through; the output carries no v1 display keys. -/
def v2body (req : RawRequirement) : NormalizedRequirement :=
  { scheme := req.scheme
    network := req.network
    amount := req.amount.getD ""
    asset := req.asset
    payTo := req.payTo
    maxTimeoutSeconds := req.maxTimeoutSeconds
    extra := req.extra
    resource := none
    description := none
    mimeType := none }

/-- `normalizeV2Requirement` (src/x402/protocol.ts lines 75-88):
throws when `amount` is falsy. -/
def normalizeV2Requirement (req : RawRequirement) :
    Except String NormalizedRequirement :=
  if !truthy req.amount then
    .error "v2 requirement missing amount field"
  else
    .ok (v2body req)

/-- `normalizePaymentRequired` (src/x402/protocol.ts lines 91-113):
classify with `isV1Response`, then map the matching per-entry
normalizer over `accepts`; `version = x402Version ?? 1`. -/
def normalizePaymentRequired (pr : RawPaymentRequired) :
    Except String NormalizedPaymentRequired :=
  let version := pr.x402Version.getD 1
  if isV1Response pr then
    match mapExcept normalizeV1Requirement pr.accepts with
    | .error e => .error e
    | .ok accepts =>
      .ok { x402Version := 1
            error := pr.error
            accepts := accepts }
  else
    match mapExcept normalizeV2Requirement pr.accepts with
    | .error e => .error e
    | .ok accepts =>
      .ok { x402Version := version
            error := pr.error
            accepts := accepts
            resource := pr.resource
            extensions := pr.extensions }

/-! ## Schema extraction (`extractV1Schema`, src/x402/protocol.ts 135-162) -/

/-- The `input` descriptor of a v1 `outputSchema`. -/
structure V1Input where
  type : String := ""
  method : Option String := none
  discoverable : Option Bool := none
  queryParams : Option ExtraMap := none
  body : Option ExtraMap := none
  bodyFields : Option ExtraMap := none
  headers : Option ExtraMap := none
deriving Repr, DecidableEq

/-- A v1 `outputSchema` substructure. -/
structure V1OutputSchema where
  input : Option V1Input := none
  output : Option ExtraMap := none
deriving Repr, DecidableEq

/-- The `accept` entry as seen by `extractV1Schema` (only
`outputSchema` is consulted). -/
structure V1Accept where
  outputSchema : Option V1OutputSchema := none
deriving Repr, DecidableEq

/-- The extracted `input` descriptor: `bodyType`/`body` are written
together or not at all (conditional spread in the source). -/
structure ExtractedInput where
  type : String
  method : String
  queryParams : Option ExtraMap := none
  bodyType : Option String := none
  body : Option ExtraMap := none
  headers : Option ExtraMap := none
deriving Repr, DecidableEq

/-- The wrapped `output` descriptor (`{type:'json', example: ...}`).
The source field is named `example`, a reserved word in Lean, hence
`exampleVal`. -/
structure ExtractedOutput where
  type : String
  exampleVal : ExtraMap
deriving Repr, DecidableEq

/-- The whole extraction result. -/
structure Extracted where
  input : ExtractedInput
  output : Option ExtractedOutput := none
deriving Repr, DecidableEq

/-- `extractV1Schema` (src/x402/protocol.ts lines 135-162).  Returns
`none` (not an error) when the schema substructure, the `http` type or
a truthy method is missing, or when `discoverable === false`. -/
def extractV1Schema (accept : V1Accept) : Option Extracted :=
  match accept.outputSchema with
  | none => none
  | some schema =>
    match schema.input with
    | none => none
    | some inp =>
      if !(inp.type == "http") then none
      else if !truthy inp.method then none
      else if inp.discoverable == some false then none
      else
        let method := strToUpper (inp.method.getD "")
        let isBodyMethod := ["POST", "PUT", "PATCH"].contains method
        let bodyVal : Option ExtraMap :=
          match inp.body with
          | some b => some b
          | none => inp.bodyFields
        some
          { input :=
              { type := "http"
                method := method
                queryParams := inp.queryParams
                bodyType :=
                  if isBodyMethod && bodyVal.isSome then some "json" else none
                body :=
                  if isBodyMethod && bodyVal.isSome then bodyVal else none
                headers := inp.headers }
            output := schema.output.map (fun o => { type := "json", exampleVal := o }) }

/-! ## Network identifiers (`toCaip2`, src/networks.ts 60-76) -/

/-- The `V1_TO_CAIP2` table. -/
def V1_TO_CAIP2 : List (String × String) :=
  [ ("base", "eip155:8453")
  , ("base-sepolia", "eip155:84532")
  , ("ethereum", "eip155:1")
  , ("ethereum-sepolia", "eip155:11155111")
  , ("optimism", "eip155:10")
  , ("arbitrum", "eip155:42161")
  , ("polygon", "eip155:137") ]

/-- `toCaip2` (src/networks.ts lines 73-76): identity on `eip155:`
identifiers, table lookup on lower-cased v1 names, identity fallback. -/
def toCaip2 (network : String) : String :=
  if strStartsWith network "eip155:" then network
  else
    match hget V1_TO_CAIP2 (strToLower network) with
    | some c => c
    | none => network

/-- The requirement-selection lambda installed by `createClient`
(src/x402/client.ts lines 44-49):
`accepts.find(a => toCaip2(a.network) === toCaip2(preferred)) ?? accepts[0]`. -/
def selectRequirement (preferredNetwork : String)
    (accepts : List RawRequirement) : Option RawRequirement :=
  match accepts.find? (fun a => toCaip2 a.network == toCaip2 preferredNetwork) with
  | some a => some a
  | none => accepts.head?

/-! ## The HTTP world as an environment -/

/-- Payload data as returned to the caller: a JSON value or raw text
(both opaque tokens). -/
inductive Data where
  | json (s : String)
  | text (s : String)
deriving Repr, DecidableEq

/-- One HTTP response as the engines observe it.  `json`/`text` give
the outcome a body read would have (a read may itself throw);
`headersList` are the response headers with lower-case names, as
`Headers.entries()` yields them. -/
structure HttpResponse where
  status : Nat
  headersList : HMap := []
  json : Except String String := .error "no body"
  text : Except String String := .error "no body"
deriving Repr

/-- `response.ok`: status in the 200-299 range. -/
def HttpResponse.isOk (r : HttpResponse) : Bool :=
  200 ≤ r.status && r.status < 300

/-- `headers.get('content-type')` followed by
`.includes('application/json')`. -/
def HttpResponse.ctJson (r : HttpResponse) : Bool :=
  match hget r.headersList "content-type" with
  | some ct => strIncludes ct "application/json"
  | none => false

/-- The outcome of one `fetch` call: a thrown network error or a
response. -/
inductive FetchResult where
  | err (msg : String)
  | resp (r : HttpResponse)
deriving Repr

/-! ## Payment negotiation engine (`makeRequest`, src/x402/client.ts 65-265) -/

/-- `paymentPayload.accepted` as read by settlement handling. -/
structure AcceptedInfo where
  network : String
  payTo : String
deriving Repr, DecidableEq

/-- The signed payment instrument produced by
`client.createPaymentPayload` (opaque except for `accepted`). -/
structure PaymentPayload where
  accepted : Option AcceptedInfo := none
deriving Repr, DecidableEq

/-- The raw settlement record from `getPaymentSettleResponse`. -/
structure RawSettle where
  transaction : String := ""
  network : String := ""
  payer : String := ""
deriving Repr, DecidableEq

/-- The settlement record placed in the result. -/
structure SettleOut where
  transactionHash : String
  network : String
  payer : String
deriving Repr, DecidableEq

/-- Diagnostics attached to a phase failure. -/
structure MRDetails where
  headers : Option HMap := none
  body : Option String := none
deriving Repr, DecidableEq

/-- A phase-tagged failure descriptor. -/
structure MRError where
  phase : String
  message : String
  details : Option MRDetails := none
deriving Repr, DecidableEq

/-- The structured result of `makeRequest`. -/
structure MRResult where
  success : Bool
  statusCode : Nat
  data : Option Data := none
  paymentRequired : Option NormalizedPaymentRequired := none
  settlement : Option SettleOut := none
  error : Option MRError := none
deriving Repr, DecidableEq

/-- The behavior of the external collaborators during one
`makeRequest` execution. -/
structure MREnv where
  firstFetch : FetchResult
  getPaymentRequired : Option String → Except String RawPaymentRequired
  createPaymentPayload : RawPaymentRequired → Except String PaymentPayload
  encodePaymentSignatureHeader : PaymentPayload → Except String HMap
  secondFetch : FetchResult
  getPaymentSettle : Except String RawSettle
  headers : HMap := []

/-- Trace of `makeRequest`: the headers of the paid retry, if one was
issued. -/
structure MRTrace where
  paidHeaders : Option HMap := none
deriving Repr, DecidableEq

/-- `makeRequest` (src/x402/client.ts lines 65-265), translated
phase by phase.  A `.error` in the first component is an exception
escaping the engine raw (the source has no surrounding handler at
those spots: the `encodePaymentSignatureHeader` call between phases 3
and 4, and the `text()` body reads inside error branches). -/
def makeRequest (env : MREnv) : Except String MRResult × MRTrace :=
  let t0 : MRTrace := {}
  match env.firstFetch with
  | .err m =>
    (.ok { success := false, statusCode := 0
           error := some { phase := "initial_request"
                           message := "Network error: " ++ m } }, t0)
  | .resp r =>
    if r.status == 402 then
      -- Phase 2: parse payment requirements
      let responseBody := r.json.toOption
      let parseFail := fun (m : String) =>
        (Except.ok { success := false, statusCode := 402
                     error := some { phase := "parse_requirements"
                                     message := "Failed to parse payment requirements: " ++ m
                                     details := some { headers := some r.headersList
                                                       body := responseBody } } }, t0)
      match env.getPaymentRequired responseBody with
      | .error m => parseFail m
      | .ok rawPR =>
        match normalizePaymentRequired rawPR with
        | .error m => parseFail m
        | .ok pr =>
          -- Phase 3: create signed payment
          match env.createPaymentPayload rawPR with
          | .error m =>
            (.ok { success := false, statusCode := 402
                   paymentRequired := some pr
                   error := some { phase := "create_signature"
                                   message := "Failed to create payment: " ++ m } }, t0)
          | .ok payload =>
            -- encodePaymentSignatureHeader: not inside any try block
            match env.encodePaymentSignatureHeader payload with
            | .error e => (.error e, t0)
            | .ok paymentHeaders =>
              -- Phase 4: retry with payment
              let sent := hmerge (hmerge [("Content-Type", "application/json")]
                                   paymentHeaders) env.headers
              let t1 : MRTrace := { paidHeaders := some sent }
              match env.secondFetch with
              | .err m =>
                (.ok { success := false, statusCode := 0
                       paymentRequired := some pr
                       error := some { phase := "paid_request"
                                       message := "Network error on paid request: " ++ m } }, t1)
              | .resp r2 =>
                if !r2.isOk then
                  match r2.text with
                  | .error e => (.error e, t1)
                  | .ok tb =>
                    (.ok { success := false, statusCode := r2.status
                           paymentRequired := some pr
                           error := some { phase := "paid_request"
                                           message := "HTTP " ++ toString r2.status ++
                                             " after payment: " ++ tb
                                           details := some { headers := some r2.headersList } } }, t1)
                else
                  -- Phase 5: settlement (failures absorbed)
                  let settlement : Option SettleOut :=
                    match env.getPaymentSettle with
                    | .error _ => none
                    | .ok s =>
                      some { transactionHash := s.transaction
                             network := s.network
                             payer := jsOr s.payer
                               (jsOr ((payload.accepted.map AcceptedInfo.payTo).getD "") "") }
                  match r2.json with
                  | .ok d =>
                    (.ok { success := true, statusCode := r2.status
                           data := some (.json d)
                           settlement := settlement
                           paymentRequired := some pr }, t1)
                  | .error _ =>
                    match r2.text with
                    | .ok d =>
                      (.ok { success := true, statusCode := r2.status
                             data := some (.text d)
                             settlement := settlement
                             paymentRequired := some pr }, t1)
                    | .error e => (.error e, t1)
    else
      -- Not 402: return as-is
      if r.isOk then
        match r.json with
        | .ok d =>
          (.ok { success := true, statusCode := r.status, data := some (.json d) }, t0)
        | .error _ =>
          match r.text with
          | .ok d =>
            (.ok { success := true, statusCode := r.status, data := some (.text d) }, t0)
          | .error e => (.error e, t0)
      else
        match r.text with
        | .error e => (.error e, t0)
        | .ok tb =>
          (.ok { success := false, statusCode := r.status
                 error := some { phase := "initial_request"
                                 message := "HTTP " ++ toString r.status ++ ": " ++ tb } }, t0)

/-! ## Payment-free probe (`queryEndpoint`, src/x402/client.ts 270-337) -/

/-- The collaborators for one `queryEndpoint` execution. -/
structure QEnv where
  fetch : FetchResult
  getPaymentRequired : Option String → Except String RawPaymentRequired
  headers : HMap := []

/-- The result shape of `queryEndpoint`. -/
structure QResult where
  success : Bool
  statusCode : Nat
  x402Version : Option Int := none
  paymentRequired : Option NormalizedPaymentRequired := none
  rawHeaders : Option HMap := none
  rawBody : Option String := none
  error : Option String := none
  parseErrors : Option (List String) := none
deriving Repr, DecidableEq

/-- Trace of `queryEndpoint`: whether the response body was read. -/
structure QTrace where
  bodyRead : Bool := false
deriving Repr, DecidableEq

/-- `queryEndpoint` (src/x402/client.ts lines 270-337): phases 1-2
only, with the parse step fully guarded; a non-402 status returns
success with headers only, without touching the body. -/
def queryEndpoint (env : QEnv) : QResult × QTrace :=
  match env.fetch with
  | .err m =>
    ({ success := false, statusCode := 0, error := some ("Network error: " ++ m) }, {})
  | .resp r =>
    let rawHeaders := r.headersList
    if !(r.status == 402) then
      ({ success := true, statusCode := r.status, rawHeaders := some rawHeaders }, {})
    else
      let rawBody := r.json.toOption
      let t : QTrace := { bodyRead := true }
      match env.getPaymentRequired rawBody with
      | .error m =>
        ({ success := false, statusCode := 402
           error := some ("Failed to parse payment requirements: " ++ m)
           parseErrors := some [m]
           rawHeaders := some rawHeaders, rawBody := rawBody }, t)
      | .ok raw =>
        match normalizePaymentRequired raw with
        | .error m =>
          ({ success := false, statusCode := 402
             error := some ("Failed to parse payment requirements: " ++ m)
             parseErrors := some [m]
             rawHeaders := some rawHeaders, rawBody := rawBody }, t)
        | .ok pr =>
          ({ success := true, statusCode := 402
             x402Version := some pr.x402Version
             paymentRequired := some pr
             rawHeaders := some rawHeaders, rawBody := rawBody }, t)

/-! ## Extension authentication engine
(`authed_call` handler, src/tools/auth.ts 139-291) -/

/-- The wallet handed out by `getWallet`. -/
structure Wallet where
  address : String
deriving Repr, DecidableEq

/-- Structured metadata attached to an `mcpError` result. -/
structure MCPMeta where
  statusCode : Option Nat := none
  headers : Option HMap := none
  body : Option Data := none
  extensionKeys : Option (List String) := none
  missingFields : Option (List String) := none
  chainId : Option String := none
  authAddress : Option String := none
deriving Repr, DecidableEq

/-- The `authentication` block of a successful `authed_call`. -/
structure AuthInfo where
  address : String
  domain : String
  chainId : String
deriving Repr, DecidableEq

/-- The payload of an `mcpSuccess` result. -/
structure AuthSuccess where
  statusCode : Nat
  headers : HMap
  data : Data
  authentication : Option AuthInfo := none
deriving Repr, DecidableEq

/-- The structured MCP tool result: success payload or error with
message and metadata.  Every exit of `authed_call` is one of these. -/
inductive MCPResult where
  | success (s : AuthSuccess)
  | error (msg : String) (meta : MCPMeta)
deriving Repr, DecidableEq

/-- The collaborators for one `authed_call` execution.  The vendored
`createSIWxPayload` / `encodeSIWxHeader` live outside src/, so the
signed payload is an opaque token and the encoder an abstract
function. -/
structure AuthEnv where
  wallet : Except String Wallet
  firstFetch : FetchResult
  getPaymentRequired : Option String → Except String RawPaymentRequired
  createPayload : Except String String
  encodeSIWxHeader : String → String
  secondFetch : FetchResult
  headers : HMap := []

/-- Trace of `authed_call`: whether the signing capability was invoked
and, when a retry was issued, the headers it carried. -/
structure AuthTrace where
  signerInvoked : Bool := false
  sentHeaders : Option HMap := none
deriving Repr, DecidableEq

/-- The required-field names checked in step 3 of `authed_call`. -/
def siwxRequiredFields : List String :=
  ["domain", "uri", "version", "chainId", "nonce", "issuedAt"]

/-- Field access by name on the extension info
(`serverInfo[f as keyof SIWxExtensionInfo]`). -/
def SIWxExtensionInfo.fieldVal (i : SIWxExtensionInfo) : String → Option String
  | "domain" => i.domain
  | "uri" => i.uri
  | "version" => i.version
  | "chainId" => i.chainId
  | "nonce" => i.nonce
  | "issuedAt" => i.issuedAt
  | _ => none

/-- Lookup in the normalized `extensions` map
(`paymentRequired.extensions?.['sign-in-with-x']`). -/
def extLookup (m : List (String × ExtValue)) (k : String) : Option ExtValue :=
  (m.find? (fun p => p.1 == k)).map (fun p => p.2)

/-- Read the response body of a successful response as the handler
does: json when the content type includes `application/json`, text
otherwise — neither read is guarded locally. -/
def readOkData (r : HttpResponse) : Except String Data :=
  if r.ctJson then
    match r.json with
    | .ok b => .ok (.json b)
    | .error e => .error e
  else
    match r.text with
    | .ok t => .ok (.text t)
    | .error e => .error e

/-- Read an error body: `try json catch text` — the text read in the
catch is itself unguarded. -/
def readErrData (r : HttpResponse) : Except String Data :=
  match r.json with
  | .ok b => .ok (.json b)
  | .error _ =>
    match r.text with
    | .ok t => .ok (.text t)
    | .error e => .error e

/-- The body of the `authed_call` handler inside its top-level `try`
(src/tools/auth.ts lines 140-286).  A `.error` here is an exception
reaching the top-level `catch`. -/
def innerAuth (env : AuthEnv) : Except String MCPResult × AuthTrace :=
  let t0 : AuthTrace := {}
  match env.wallet with
  | .error e => (.error e, t0)
  | .ok w =>
    match env.firstFetch with
    | .err m => (.error m, t0)
    | .resp r =>
      if !(r.status == 402) then
        if r.isOk then
          match readOkData r with
          | .error e => (.error e, t0)
          | .ok d =>
            (.ok (.success { statusCode := r.status, headers := r.headersList
                             data := d }), t0)
        else
          match readErrData r with
          | .error e => (.error e, t0)
          | .ok eb =>
            (.ok (.error ("HTTP " ++ toString r.status)
                    { statusCode := some r.status
                      headers := some r.headersList
                      body := some eb }), t0)
      else
        -- Step 2: parse 402 response (no local handler)
        let rawBody := r.json.toOption
        match env.getPaymentRequired rawBody with
        | .error e => (.error e, t0)
        | .ok rawPR =>
          match normalizePaymentRequired rawPR with
          | .error e => (.error e, t0)
          | .ok pr =>
            -- Step 3: look up the sign-in-with-x extension
            let extMap := pr.extensions.getD []
            match (extLookup extMap "sign-in-with-x").bind ExtValue.info with
            | none =>
              (.ok (.error "Endpoint returned 402 but no sign-in-with-x extension found"
                      { statusCode := some 402
                        extensionKeys := some (extMap.map (fun p => p.1)) }), t0)
            | some serverInfo =>
              -- Validate required fields
              let missingFields :=
                siwxRequiredFields.filter (fun f => !truthy (serverInfo.fieldVal f))
              if !(missingFields == []) then
                (.ok (.error "Invalid sign-in-with-x extension: missing required fields"
                        { missingFields := some missingFields }), t0)
              else
                -- Step 4: reject unsupported chain namespaces
                let chainId := serverInfo.chainId.getD ""
                if strStartsWith chainId "solana:" then
                  (.ok (.error "Solana authentication not supported"
                          { chainId := some chainId }), t0)
                else
                  -- Step 5: sign the server challenge
                  let t1 : AuthTrace := { signerInvoked := true }
                  match env.createPayload with
                  | .error e => (.error e, t1)
                  | .ok payload =>
                    let siwxHeader := env.encodeSIWxHeader payload
                    -- Step 6: retry with SIGN-IN-WITH-X header
                    let sent := hmerge
                      [ ("Content-Type", "application/json")
                      , ("SIGN-IN-WITH-X", siwxHeader) ] env.headers
                    let t2 : AuthTrace := { signerInvoked := true
                                            sentHeaders := some sent }
                    match env.secondFetch with
                    | .err m => (.error m, t2)
                    | .resp r2 =>
                      if !r2.isOk then
                        match readErrData r2 with
                        | .error e => (.error e, t2)
                        | .ok eb =>
                          (.ok (.error ("HTTP " ++ toString r2.status ++ " after authentication")
                                  { statusCode := some r2.status
                                    headers := some r2.headersList
                                    body := some eb
                                    authAddress := some w.address }), t2)
                      else
                        match readOkData r2 with
                        | .error e => (.error e, t2)
                        | .ok d =>
                          (.ok (.success { statusCode := r2.status
                                           headers := r2.headersList
                                           data := d
                                           authentication := some
                                             { address := w.address
                                               domain := serverInfo.domain.getD ""
                                               chainId := chainId } }), t2)

/-- `authed_call` (src/tools/auth.ts lines 139-291): the inner flow
wrapped in the top-level `try/catch`, which converts any exception
into an `mcpError` result.  The handler therefore always returns a
structured `MCPResult`. -/
def authedCall (env : AuthEnv) : MCPResult × AuthTrace :=
  match innerAuth env with
  | (.ok res, t) => (res, t)
  | (.error e, t) => (.error e {}, t)

/-! ## Helper lemmas -/

/-- A truthy optional string is `some` of its default-extracted value. -/
theorem truthy_eq_some {o : Option String} (h : truthy o = true) :
    o = some (o.getD "") := by
  cases o with
  | none => simp [truthy] at h
  | some s => rfl

/-- `mapExcept` succeeds pointwise when every element succeeds. -/
theorem mapExcept_ok_of_all {f : α → Except String β} {g : α → β} :
    ∀ {l : List α}, (∀ a ∈ l, f a = .ok (g a)) →
      mapExcept f l = .ok (l.map g)
  | [], _ => rfl
  | a :: l, h => by
    have ha : f a = .ok (g a) := h a (List.mem_cons_self a l)
    have hl : mapExcept f l = .ok (l.map g) :=
      mapExcept_ok_of_all (fun x hx => h x (List.mem_cons_of_mem a hx))
    simp [mapExcept, ha, hl]

/-- `mapExcept` fails immediately when the head fails. -/
theorem mapExcept_cons_error {f : α → Except String β} {a : α} {l : List α}
    {e : String} (h : f a = .error e) :
    mapExcept f (a :: l) = .error e := by
  simp [mapExcept, h]

/-- `List.find?` returns the first match: the found element sits at an
index before which no element satisfies the predicate. -/
theorem find?_some_first {p : α → Bool} :
    ∀ {l : List α} {b : α}, l.find? p = some b →
      ∃ i, ∃ hi : i < l.length,
        l.get ⟨i, hi⟩ = b ∧ p b = true ∧ ∀ x ∈ l.take i, p x = false
  | [], b, h => by simp [List.find?] at h
  | a :: l, b, h => by
    by_cases hpa : p a = true
    · refine ⟨0, by simp, ?_, ?_, by simp⟩
      · simp only [List.find?, hpa] at h
        simpa using Option.some.inj h
      · simp only [List.find?, hpa] at h
        cases h
        exact hpa
    · have hpa' : p a = false := by
        cases hp : p a
        · rfl
        · exact absurd hp hpa
      have h' : l.find? p = some b := by
        simpa [List.find?, hpa'] using h
      obtain ⟨i, hi, hg, hpb, hbefore⟩ := find?_some_first h'
      refine ⟨i + 1, by simpa using Nat.succ_lt_succ hi, by simpa using hg, hpb, ?_⟩
      intro x hx
      rcases List.mem_cons.mp (by simpa [List.take] using hx) with hxa | hxl
      · simpa [hxa] using hpa'
      · exact hbefore x hxl

/-- Reading a key just assigned. -/
theorem hget_hset_self : ∀ (m : HMap) (k v : String),
    hget (hset m k v) k = some v
  | [], k, v => by simp [hset, hget]
  | p :: m, k, v => by
    by_cases h : (p.1 == k) = true
    · simp [hset, h, hget]
    · have h' : (p.1 == k) = false := by
        cases hp : p.1 == k
        · rfl
        · exact absurd hp h
      simp [hset, h', hget, hget_hset_self m k v]

/-- Assigning one key leaves the others unchanged. -/
theorem hget_hset_ne : ∀ (m : HMap) (k1 v k : String), k1 ≠ k →
    hget (hset m k1 v) k = hget m k
  | [], k1, v, k, h => by
    simp [hset, hget, beq_eq_false_iff_ne.mpr h]
  | p :: m, k1, v, k, h => by
    by_cases h1 : (p.1 == k1) = true
    · have : p.1 = k1 := beq_iff_eq.mp h1
      simp [hset, h1, hget, this, beq_eq_false_iff_ne.mpr h]
    · have h1' : (p.1 == k1) = false := by
        cases hp : p.1 == k1
        · rfl
        · exact absurd hp h1
      by_cases h2 : (p.1 == k) = true
      · simp [hset, h1', hget, h2]
      · have h2' : (p.1 == k) = false := by
          cases hp : p.1 == k
          · rfl
          · exact absurd hp h2
        simp [hset, h1', hget, h2', hget_hset_ne m k1 v k h]

/-- Merging a map that lacks a key leaves that key unchanged. -/
theorem hget_hmerge_of_not_key : ∀ (u m : HMap) (k : String),
    hasKey u k = false → hget (hmerge m u) k = hget m k
  | [], m, k, _ => rfl
  | p :: u, m, k, h => by
    have hh : hget (p :: u) k = none := by
      simpa [hasKey, Option.isSome_iff_exists] using h
    have hne : (p.1 == k) = false := by
      by_contra hc
      have : (p.1 == k) = true := by
        cases hp : p.1 == k
        · exact absurd hp hc
        · rfl
      simp [hget, this] at hh
    have hu : hasKey u k = false := by
      simp only [hget, hne] at hh
      simp at hh
      simp [hasKey, hh]
    have step : hmerge m (p :: u) = hmerge (hset m p.1 p.2) u := rfl
    rw [step, hget_hmerge_of_not_key u (hset m p.1 p.2) k hu,
      hget_hset_ne m p.1 p.2 k (by simpa using beq_eq_false_iff_ne.mp hne)]

/-- When a key of the keys is not present, lookup yields nothing. -/
theorem hget_eq_none_of_not_mem_keys : ∀ (u : HMap) (k : String),
    k ∉ u.map Prod.fst → hget u k = none
  | [], _, _ => rfl
  | p :: u, k, h => by
    have h1 : p.1 ≠ k := by
      intro hc
      exact h (by simp [hc])
    have h2 : k ∉ u.map Prod.fst := fun hc => h (by simp [hc])
    simp [hget, beq_eq_false_iff_ne.mpr h1, hget_eq_none_of_not_mem_keys u k h2]

/-- Merging a duplicate-free map installs each of its bindings. -/
theorem hget_hmerge_of_mem_nodup : ∀ (u m : HMap) (k v : String),
    (u.map Prod.fst).Nodup → hget u k = some v →
    hget (hmerge m u) k = some v
  | [], m, k, v, _, h => by simp [hget] at h
  | p :: u, m, k, v, hnd, h => by
    have step : hmerge m (p :: u) = hmerge (hset m p.1 p.2) u := rfl
    have hnd2 : p.1 ∉ u.map Prod.fst ∧ (u.map Prod.fst).Nodup := by
      rw [List.map_cons, List.nodup_cons] at hnd
      exact hnd
    by_cases h1 : (p.1 == k) = true
    · have hk : p.1 = k := beq_iff_eq.mp h1
      have hv : v = p.2 := by
        simp [hget, h1] at h
        exact h.symm
      have hnotin : k ∉ u.map Prod.fst := hk ▸ hnd2.1
      have hu : hasKey u k = false := by
        simp [hasKey, hget_eq_none_of_not_mem_keys u k hnotin]
      rw [step, hget_hmerge_of_not_key u (hset m p.1 p.2) k hu, hk, hv,
        hget_hset_self]
    · have h1' : (p.1 == k) = false := by
        cases hp : p.1 == k
        · rfl
        · exact absurd hp h1
      have h' : hget u k = some v := by simpa [hget, h1'] using h
      rw [step]
      exact hget_hmerge_of_mem_nodup u (hset m p.1 p.2) k v hnd2.2 h'

/-! ## Claim C6 -/

/-- C6: for every input classified as legacy in which every requirement
entry has a populated `maxAmountRequired`, `normalizePaymentRequired`
succeeds, reports version 1, preserves the length and order of
`accepts` exactly (entry i of the output is the per-entry image of
entry i of the input), and maps each entry's `amount` from its
`maxAmountRequired`. -/
theorem legacy_normalization_mapping (pr : RawPaymentRequired)
    (hv1 : isV1Response pr = true)
    (hall : ∀ req ∈ pr.accepts, truthy req.maxAmountRequired = true) :
    ∃ out, normalizePaymentRequired pr = .ok out ∧
      out.x402Version = 1 ∧
      out.accepts.length = pr.accepts.length ∧
      ∀ i, ∀ hi : i < pr.accepts.length, ∀ ho : i < out.accepts.length,
        out.accepts.get ⟨i, ho⟩ = v1body (pr.accepts.get ⟨i, hi⟩) ∧
        (pr.accepts.get ⟨i, hi⟩).maxAmountRequired =
          some ((out.accepts.get ⟨i, ho⟩).amount) := by
  have hmap : mapExcept normalizeV1Requirement pr.accepts =
      .ok (pr.accepts.map v1body) := by
    apply mapExcept_ok_of_all
    intro a ha
    simp [normalizeV1Requirement, hall a ha]
  refine ⟨{ x402Version := 1, error := pr.error, accepts := pr.accepts.map v1body },
    ?_, rfl, by simp, ?_⟩
  · simp [normalizePaymentRequired, hv1, hmap]
  · intro i hi ho
    have hg : (pr.accepts.map v1body).get ⟨i, ho⟩ = v1body (pr.accepts.get ⟨i, hi⟩) := by
      simp [List.getElem_map]
    refine ⟨hg, ?_⟩
    have ht := hall (pr.accepts.get ⟨i, hi⟩) (List.get_mem pr.accepts i hi)
    rw [hg]
    simpa [v1body] using truthy_eq_some ht

/-- A concrete legacy input for the C6 witness. -/
def reqV1a : RawRequirement :=
  { scheme := "exact", network := "base"
    maxAmountRequired := some "1000000"
    resource := some "https://api.example.com/data"
    description := some "API call", mimeType := some "application/json"
    payTo := "0x1234", maxTimeoutSeconds := 300, asset := "0xA0b8" }

/-- A concrete legacy body for the C6 witness. -/
def prV1 : RawPaymentRequired :=
  { x402Version := some 1, accepts := [reqV1a] }

/-- C6 witness: the mapping theorem applied to a concrete legacy body. -/
theorem legacy_normalization_mapping_witness :
    ∃ out, normalizePaymentRequired prV1 = .ok out ∧
      out.x402Version = 1 ∧
      out.accepts.length = prV1.accepts.length ∧
      ∀ i, ∀ hi : i < prV1.accepts.length, ∀ ho : i < out.accepts.length,
        out.accepts.get ⟨i, ho⟩ = v1body (prV1.accepts.get ⟨i, hi⟩) ∧
        (prV1.accepts.get ⟨i, hi⟩).maxAmountRequired =
          some ((out.accepts.get ⟨i, ho⟩).amount) :=
  legacy_normalization_mapping prV1 rfl (by decide)

/-! ## Claim C7 -/

/-- C7: when the first `accepts` entry lacks a truthy
`maxAmountRequired` and a truthy `amount`, `normalizePaymentRequired`
raises a typed error for any declared protocol version; the amount is
never defaulted. -/
theorem missing_amount_hard_error (pr : RawPaymentRequired)
    (first : RawRequirement) (rest : List RawRequirement)
    (hacc : pr.accepts = first :: rest)
    (h1 : truthy first.maxAmountRequired = false)
    (h2 : truthy first.amount = false) :
    ∃ e, normalizePaymentRequired pr = .error e := by
  by_cases hv : isV1Response pr = true
  · have hfail : normalizeV1Requirement first =
        .error "v1 requirement missing maxAmountRequired field" := by
      simp [normalizeV1Requirement, h1]
    exact ⟨"v1 requirement missing maxAmountRequired field",
      by simp [normalizePaymentRequired, hv, hacc, mapExcept_cons_error hfail]⟩
  · have hv' : isV1Response pr = false := by
      cases h : isV1Response pr
      · rfl
      · exact absurd h hv
    have hfail : normalizeV2Requirement first =
        .error "v2 requirement missing amount field" := by
      simp [normalizeV2Requirement, h2]
    exact ⟨"v2 requirement missing amount field",
      by simp [normalizePaymentRequired, hv', hacc, mapExcept_cons_error hfail]⟩

/-- A body whose single requirement entry carries neither amount
field. -/
def prNoAmount : RawPaymentRequired :=
  { x402Version := some 2, accepts := [{ scheme := "exact", network := "base" }] }

/-- C7 witness: the hard-error theorem applied to a concrete
amount-less body. -/
theorem missing_amount_hard_error_witness :
    ∃ e, normalizePaymentRequired prNoAmount = .error e :=
  missing_amount_hard_error prNoAmount
    { scheme := "exact", network := "base" } [] rfl rfl rfl

/-! ## Claim C1 -/

/-- A body carrying the explicit current-version marker whose first
entry also carries the legacy field name. -/
def prMarkedV2Legacy : RawPaymentRequired :=
  { x402Version := some 2
    accepts := [{ scheme := "exact", network := "base"
                  maxAmountRequired := some "1000000", amount := some "1000000"
                  payTo := "0x1234", maxTimeoutSeconds := 300, asset := "0xA0b8" }] }

/-- C1 counterexample: an input with `x402Version = 2` whose first
entry carries `maxAmountRequired` is classified — and normalized — as
legacy; the explicit current-version marker does not win over the
field-shape heuristic. -/
theorem marker_does_not_override_heuristic :
    prMarkedV2Legacy.x402Version = some 2 ∧
    isV1Response prMarkedV2Legacy = true ∧
    (normalizePaymentRequired prMarkedV2Legacy).map
      NormalizedPaymentRequired.x402Version = .ok 1 :=
  ⟨rfl, rfl, rfl⟩

/-- C1 (amended): classification is legacy exactly when the top-level
version field equals 1 or the first requirement entry carries the
`maxAmountRequired` key; the explicit `x402Version = 2` marker does
not override the field-shape heuristic, and normalization reports
version 1 exactly on the inputs so classified. -/
theorem version_classification (pr : RawPaymentRequired) :
    (isV1Response pr = true ↔
      (pr.x402Version = some 1 ∨ firstHasLegacyKey pr.accepts = true)) ∧
    (∀ out, normalizePaymentRequired pr = .ok out →
      out.x402Version = if isV1Response pr then 1 else pr.x402Version.getD 1) := by
  constructor
  · constructor
    · intro h
      by_cases hv : pr.x402Version == some 1
      · exact Or.inl (by simpa using hv)
      · refine Or.inr ?_
        simpa [isV1Response, hv] using h
    · intro h
      rcases h with h | h
      · simp [isV1Response, h]
      · by_cases hv : pr.x402Version == some 1
        · simp [isV1Response, hv]
        · simpa [isV1Response, hv] using h
  · intro out hout
    by_cases hv : isV1Response pr = true
    · rw [hv]
      simp only [normalizePaymentRequired, hv, if_true] at hout
      cases hm : mapExcept normalizeV1Requirement pr.accepts with
      | error e => rw [hm] at hout; cases hout
      | ok acc =>
        rw [hm] at hout
        cases hout
        rfl
    · have hv' : isV1Response pr = false := by
        cases h : isV1Response pr
        · rfl
        · exact absurd h hv
      rw [hv']
      simp only [normalizePaymentRequired, hv', Bool.false_eq_true, if_false] at hout
      cases hm : mapExcept normalizeV2Requirement pr.accepts with
      | error e => rw [hm] at hout; cases hout
      | ok acc =>
        rw [hm] at hout
        cases hout
        rfl

/-- The normalized image of the C1 witness body. -/
def outMarked : NormalizedPaymentRequired :=
  { x402Version := 1, error := none
    accepts := [v1body { scheme := "exact", network := "base"
                         maxAmountRequired := some "1000000", amount := some "1000000"
                         payTo := "0x1234", maxTimeoutSeconds := 300, asset := "0xA0b8" }] }

/-- C1 witness: the amended classification applied to the concrete
marked body. -/
theorem version_classification_witness :
    isV1Response prMarkedV2Legacy = true ∧
    outMarked.x402Version =
      if isV1Response prMarkedV2Legacy then 1
      else prMarkedV2Legacy.x402Version.getD 1 :=
  ⟨(version_classification prMarkedV2Legacy).1.mpr (Or.inr rfl),
   (version_classification prMarkedV2Legacy).2 outMarked rfl⟩

/-! ## Claim C8 -/

/-- C8: for a non-empty requirement list, the selection lambda of
`createClient` picks the first entry whose `toCaip2`-normalized
network equals the normalized preference, and the first entry overall
when none matches; never any other entry.  The embedding is a pure
function of the list, which it leaves untouched. -/
theorem preference_selection (preferredNetwork : String)
    (accepts : List RawRequirement) (hne : accepts ≠ []) :
    ∃ sel, selectRequirement preferredNetwork accepts = some sel ∧
      ((∃ i, ∃ hi : i < accepts.length,
          accepts.get ⟨i, hi⟩ = sel ∧
          toCaip2 sel.network = toCaip2 preferredNetwork ∧
          ∀ b ∈ accepts.take i, toCaip2 b.network ≠ toCaip2 preferredNetwork) ∨
        (sel = accepts.head hne ∧
          ∀ b ∈ accepts, toCaip2 b.network ≠ toCaip2 preferredNetwork)) := by
  cases hf : accepts.find? (fun a => toCaip2 a.network == toCaip2 preferredNetwork) with
  | some a =>
    obtain ⟨i, hi, hg, hp, hbefore⟩ := find?_some_first hf
    refine ⟨a, by simp [selectRequirement, hf], Or.inl ⟨i, hi, hg, ?_, ?_⟩⟩
    · exact beq_iff_eq.mp hp
    · intro b hb
      have := hbefore b hb
      simpa using this
  | none =>
    have hall := List.find?_eq_none.mp hf
    refine ⟨accepts.head hne,
      by simp [selectRequirement, hf, List.head?_eq_head hne], Or.inr ⟨rfl, ?_⟩⟩
    intro b hb
    have := hall b hb
    simpa using this

/-- A concrete requirement list for the C8 witness: the preference
matches the second entry after network-name normalization. -/
def acceptsC8 : List RawRequirement :=
  [ { scheme := "exact", network := "base", payTo := "0x1", asset := "0xa" }
  , { scheme := "exact", network := "ethereum", payTo := "0x2", asset := "0xb" } ]

/-- C8 witness: selection applied to the concrete list with preference
`eip155:1` (the CAIP-2 form of `ethereum`). -/
theorem preference_selection_witness :
    ∃ sel, selectRequirement "eip155:1" acceptsC8 = some sel ∧
      ((∃ i, ∃ hi : i < acceptsC8.length,
          acceptsC8.get ⟨i, hi⟩ = sel ∧
          toCaip2 sel.network = toCaip2 "eip155:1" ∧
          ∀ b ∈ acceptsC8.take i, toCaip2 b.network ≠ toCaip2 "eip155:1") ∨
        (sel = acceptsC8.head (by decide) ∧
          ∀ b ∈ acceptsC8, toCaip2 b.network ≠ toCaip2 "eip155:1")) :=
  preference_selection "eip155:1" acceptsC8 (by decide)

/-! ## Claim C9 -/

/-- C9: whenever extraction produces a result, that result carries the
`bodyType`/`body` pair exactly when the upper-cased method is POST,
PUT or PATCH and the source input declares body fields under `body` or
`bodyFields`; for any other method the pair is absent even when body
fields are present upstream. -/
theorem schema_body_rule (accept : V1Accept) (schema : V1OutputSchema)
    (inp : V1Input) (hs : accept.outputSchema = some schema)
    (hi : schema.input = some inp) :
    ∀ ext, extractV1Schema accept = some ext →
      ((ext.input.bodyType.isSome = true ∧ ext.input.body.isSome = true) ↔
        (["POST", "PUT", "PATCH"].contains (strToUpper (inp.method.getD "")) = true ∧
          (inp.body.isSome = true ∨ inp.bodyFields.isSome = true))) := by
  intro ext hext
  simp only [extractV1Schema, hs, hi] at hext
  by_cases h1 : (inp.type == "http") = true
  · by_cases h2 : truthy inp.method = true
    · by_cases h3 : (inp.discoverable == some false) = true
      · simp [h1, h2, h3] at hext
      · have h3' : (inp.discoverable == some false) = false := by
          cases h : inp.discoverable == some false
          · rfl
          · exact absurd h h3
        simp only [h1, h2, h3', Bool.not_true, Bool.not_false,
          Bool.false_eq_true, if_false, if_true] at hext
        cases hext
        cases hb : inp.body with
        | some b => cases hc : ["POST", "PUT", "PATCH"].contains (strToUpper (inp.method.getD "")) <;>
            simp [hb, hc]
        | none =>
          cases hbf : inp.bodyFields with
          | some bf => cases hc : ["POST", "PUT", "PATCH"].contains (strToUpper (inp.method.getD "")) <;>
              simp [hb, hbf, hc]
          | none => cases hc : ["POST", "PUT", "PATCH"].contains (strToUpper (inp.method.getD "")) <;>
              simp [hb, hbf, hc]
    · have h2' : truthy inp.method = false := by
        cases h : truthy inp.method
        · rfl
        · exact absurd h h2
      simp [h1, h2'] at hext
  · have h1' : (inp.type == "http") = false := by
      cases h : inp.type == "http"
      · rfl
      · exact absurd h h1
    simp [h1'] at hext

/-- A concrete POST input with body fields for the C9 witness. -/
def acceptC9 : V1Accept :=
  { outputSchema := some
      { input := some { type := "http", method := some "post"
                        body := some [("prompt", "string")] }
        output := some [("type", "object")] } }

/-- The concrete extraction result on `acceptC9`. -/
def extC9 : Extracted :=
  { input := { type := "http", method := "POST", bodyType := some "json"
               body := some [("prompt", "string")] }
    output := some { type := "json", exampleVal := [("type", "object")] } }

/-- C9 witness: the body rule applied to the concrete POST accept and
its concrete extraction result. -/
theorem schema_body_rule_witness :
    (extC9.input.bodyType.isSome = true ∧ extC9.input.body.isSome = true) ↔
      (["POST", "PUT", "PATCH"].contains (strToUpper ((some "post" : Option String).getD "")) = true ∧
        ((some [("prompt", "string")] : Option ExtraMap).isSome = true ∨
          (none : Option ExtraMap).isSome = true)) :=
  schema_body_rule acceptC9
    { input := some { type := "http", method := some "post"
                      body := some [("prompt", "string")] }
      output := some [("type", "object")] }
    { type := "http", method := some "post", body := some [("prompt", "string")] }
    rfl rfl extC9 rfl

/-! ## Claim C10 -/

/-- C10: the payment-free probe returns success with only the status
code and raw headers for every non-402 response — error statuses
included, unlike phase 1 of `makeRequest` — with no error field and
without reading the response body. -/
theorem probe_leniency (env : QEnv) (r : HttpResponse)
    (hf : env.fetch = .resp r) (hs : r.status ≠ 402) :
    queryEndpoint env =
      ({ success := true, statusCode := r.status, rawHeaders := some r.headersList },
        { bodyRead := false }) := by
  have hb : (r.status == 402) = false := by simpa using hs
  simp [queryEndpoint, hf, hb]

/-- A concrete 500 response for the C10 witness. -/
def respQ : HttpResponse :=
  { status := 500, headersList := [("content-type", "text/plain")]
    json := .error "not json", text := .ok "server error" }

/-- A concrete probe environment for the C10 witness. -/
def envQ : QEnv :=
  { fetch := .resp respQ, getPaymentRequired := fun _ => .error "unused" }

/-- C10 witness: the probe applied to a concrete 500 response. -/
theorem probe_leniency_witness :
    queryEndpoint envQ =
      ({ success := true, statusCode := respQ.status
         rawHeaders := some respQ.headersList }, { bodyRead := false }) :=
  probe_leniency envQ respQ rfl (by decide)

/-! ## Claim C2 -/

/-- A concrete 500 first response. -/
def respC2 : HttpResponse :=
  { status := 500, json := .error "not json", text := .ok "oops" }

/-- A concrete negotiation environment whose first response is a 500. -/
def envC2 : MREnv :=
  { firstFetch := .resp respC2
    getPaymentRequired := fun _ => .error "unused"
    createPaymentPayload := fun _ => .error "unused"
    encodePaymentSignatureHeader := fun _ => .error "unused"
    secondFetch := .err "unused"
    getPaymentSettle := .error "unused" }

/-- C2 counterexample: a non-402 error status (500) makes `makeRequest`
return success = false with a phase-tagged failure, refuting
"success = true regardless of whether the status is a 2xx or an error
status". -/
theorem non402_error_not_success :
    (makeRequest envC2).1 =
      .ok { success := false, statusCode := 500
            error := some { phase := "initial_request"
                            message := "HTTP 500: oops" } } ∧
    (makeRequest envC2).2 = { paidHeaders := none } :=
  ⟨rfl, rfl⟩

/-- C2 (amended): any non-402 first status ends the machine without a
paid retry; the result has success = true exactly when the status is a
2xx (`response.ok`), while error statuses produce a phase-tagged
initial_request failure. -/
theorem phase1_non402 (env : MREnv) (r : HttpResponse)
    (hf : env.firstFetch = .resp r) (hs : r.status ≠ 402) :
    (makeRequest env).2.paidHeaders = none ∧
    ∀ res, (makeRequest env).1 = .ok res → res.success = r.isOk := by
  have hb : (r.status == 402) = false := by simpa using hs
  unfold makeRequest
  rw [hf]
  simp only [hb, Bool.false_eq_true, if_false]
  cases hok : r.isOk with
  | true =>
    simp only [hok, if_true]
    cases hj : r.json with
    | ok d => simp
    | error e =>
      cases ht : r.text with
      | ok d => simp
      | error e2 => simp
  | false =>
    simp only [hok, Bool.false_eq_true, if_false]
    cases ht : r.text with
    | ok tb => simp
    | error e => simp

/-- C2 witness: the amended phase-1 behavior at the concrete 500
environment. -/
theorem phase1_non402_witness :
    (makeRequest envC2).2.paidHeaders = none ∧
    ∀ res, (makeRequest envC2).1 = .ok res → res.success = respC2.isOk :=
  phase1_non402 envC2 respC2 rfl (by decide)

/-! ## Claim C3 -/

/-- A concrete 402 first response with a readable JSON body. -/
def respC3 : HttpResponse :=
  { status := 402, json := .ok "pr-body", text := .ok "pr-body" }

/-- A well-formed v2 requirement entry. -/
def reqV2ok : RawRequirement :=
  { scheme := "exact", network := "eip155:8453", amount := some "1000"
    payTo := "0xpay", asset := "0xusdc", maxTimeoutSeconds := 30 }

/-- A well-formed v2 payment-required body. -/
def prOkV2 : RawPaymentRequired :=
  { x402Version := some 2, accepts := [reqV2ok] }

/-- The normalized image of `prOkV2`. -/
def normPrOkV2 : NormalizedPaymentRequired :=
  { x402Version := 2, error := none, accepts := [v2body reqV2ok] }

/-- A concrete signed instrument. -/
def payloadC3 : PaymentPayload :=
  { accepted := some { network := "eip155:8453", payTo := "0xpay" } }

/-- A negotiation environment in which everything succeeds up to the
payment-header encoding step, which throws. -/
def envC3 : MREnv :=
  { firstFetch := .resp respC3
    getPaymentRequired := fun _ => .ok prOkV2
    createPaymentPayload := fun _ => .ok payloadC3
    encodePaymentSignatureHeader := fun _ => .error "boom"
    secondFetch := .err "unused"
    getPaymentSettle := .error "unused" }

/-- C3 counterexample: an exception thrown by
`encodePaymentSignatureHeader` — called between phases 3 and 4,
outside every try block — escapes `makeRequest` raw instead of
becoming a structured phase-tagged result. -/
theorem encode_exception_escapes_raw :
    (makeRequest envC3).1 = .error "boom" := rfl

/-- C3 (amended): `authed_call` converts every exception of its body
into a structured error result via its top-level handler, but in
`makeRequest` an exception from the payment-header encoding step
(between phases 3 and 4) propagates to the caller raw. -/
theorem exception_containment :
    (∀ (env : AuthEnv) (e : String) (t : AuthTrace),
      innerAuth env = (.error e, t) → authedCall env = (.error e {}, t)) ∧
    (∀ (env : MREnv) (r : HttpResponse) (rawPR : RawPaymentRequired)
        (pr : NormalizedPaymentRequired) (payload : PaymentPayload) (e : String),
      env.firstFetch = .resp r → r.status = 402 →
      env.getPaymentRequired r.json.toOption = .ok rawPR →
      normalizePaymentRequired rawPR = .ok pr →
      env.createPaymentPayload rawPR = .ok payload →
      env.encodePaymentSignatureHeader payload = .error e →
      (makeRequest env).1 = .error e) := by
  constructor
  · intro env e t h
    unfold authedCall
    rw [h]
  · intro env r rawPR pr payload e hf h402 hg hn hcp he
    have hb : (r.status == 402) = true := by simpa using h402
    unfold makeRequest
    rw [hf]
    simp only [hb, if_true, hg, hn, hcp, he]

/-- An authentication environment whose wallet lookup throws. -/
def envAuthErr : AuthEnv :=
  { wallet := .error "nokey"
    firstFetch := .err "unused"
    getPaymentRequired := fun _ => .error "unused"
    createPayload := .error "unused"
    encodeSIWxHeader := fun _ => ""
    secondFetch := .err "unused" }

/-- C3 witness: containment at the concrete environments — the wallet
failure becomes a structured error in `authed_call`, the encoder
failure escapes `makeRequest` raw. -/
theorem exception_containment_witness :
    authedCall envAuthErr = (.error "nokey" {}, {}) ∧
    (makeRequest envC3).1 = .error "boom" :=
  ⟨exception_containment.1 envAuthErr "nokey" {} rfl,
   exception_containment.2 envC3 respC3 prOkV2 normPrOkV2 payloadC3 "boom"
     rfl rfl rfl rfl rfl rfl⟩

/-! ## Shared concrete fixtures for the authentication claims -/

/-- The second component of `authed_call` is the trace of the inner
flow, whatever the outcome. -/
theorem authedCall_snd (env : AuthEnv) : (authedCall env).2 = (innerAuth env).2 := by
  unfold authedCall
  cases h : innerAuth env with
  | mk a t => cases a <;> rfl

/-- A bare 402 response with a readable body. -/
def resp402 : HttpResponse :=
  { status := 402, json := .ok "pr-body", text := .ok "pr-body" }

/-- A plain 200 retry response (no content-type header, text body). -/
def respOk : HttpResponse :=
  { status := 200, json := .error "not json", text := .ok "ok-data" }

/-- A complete EVM challenge. -/
def infoEvm : SIWxExtensionInfo :=
  { domain := some "api.example.com", uri := some "https://api.example.com/r"
    version := some "1", chainId := some "eip155:8453"
    nonce := some "n1", issuedAt := some "2025-01-01T00:00:00Z" }

/-- A complete challenge on a Cosmos-namespace chain. -/
def infoCosmos : SIWxExtensionInfo :=
  { domain := some "api.example.com", uri := some "https://api.example.com/r"
    version := some "1", chainId := some "cosmos:cosmoshub-4"
    nonce := some "n1", issuedAt := some "2025-01-01T00:00:00Z" }

/-- A complete challenge on a Solana chain. -/
def infoSolana : SIWxExtensionInfo :=
  { domain := some "api.example.com", uri := some "https://api.example.com/r"
    version := some "1", chainId := some "solana:mainnet"
    nonce := some "n1", issuedAt := some "2025-01-01T00:00:00Z" }

/-- A v2 body carrying a sign-in-with-x extension with the given
challenge. -/
def prWithInfo (info : SIWxExtensionInfo) : RawPaymentRequired :=
  { x402Version := some 2, accepts := [reqV2ok]
    extensions := some [("sign-in-with-x", { info := some info })] }

/-- An authentication environment for a given challenge and caller
headers, in which every collaborator succeeds. -/
def authEnvWith (info : SIWxExtensionInfo) (callerHeaders : HMap) : AuthEnv :=
  { wallet := .ok { address := "0xme" }
    firstFetch := .resp resp402
    getPaymentRequired := fun _ => .ok (prWithInfo info)
    createPayload := .ok "tok"
    encodeSIWxHeader := fun _ => "signed-proof"
    secondFetch := .resp respOk
    headers := callerHeaders }

/-! ## Claim C4 -/

/-- C4 counterexample: a caller header named SIGN-IN-WITH-X replaces
the encoded proof in the retry — the header actually sent carries the
caller's value, not the encoder's. -/
theorem caller_header_overrides_auth_header :
    ((authedCall (authEnvWith infoEvm [("SIGN-IN-WITH-X", "evil")])).2.sentHeaders.map
      (fun sh => hget sh "SIGN-IN-WITH-X")) = some (some "evil") ∧
    (authEnvWith infoEvm [("SIGN-IN-WITH-X", "evil")]).encodeSIWxHeader "tok" = "signed-proof" ∧
    ("evil" : String) ≠ "signed-proof" :=
  ⟨rfl, rfl, by decide⟩

/-- C4 (amended): on the retry, caller headers are spread after the
protocol header, so they take precedence; the payment (respectively
SIGN-IN-WITH-X) header carries the encoded value exactly when the
caller map does not itself contain that name. -/
theorem retry_header_merge :
    (∀ (env : AuthEnv) (w : Wallet) (r : HttpResponse)
        (rawPR : RawPaymentRequired) (pr : NormalizedPaymentRequired)
        (info : SIWxExtensionInfo) (payload : String),
      env.wallet = .ok w →
      env.firstFetch = .resp r → r.status = 402 →
      env.getPaymentRequired r.json.toOption = .ok rawPR →
      normalizePaymentRequired rawPR = .ok pr →
      (extLookup (pr.extensions.getD []) "sign-in-with-x").bind ExtValue.info = some info →
      siwxRequiredFields.filter (fun f => !truthy (info.fieldVal f)) = [] →
      strStartsWith (info.chainId.getD "") "solana:" = false →
      env.createPayload = .ok payload →
      hasKey env.headers "SIGN-IN-WITH-X" = false →
      ∃ sh, (authedCall env).2.sentHeaders = some sh ∧
        hget sh "SIGN-IN-WITH-X" = some (env.encodeSIWxHeader payload)) ∧
    (∀ (env : MREnv) (r : HttpResponse) (rawPR : RawPaymentRequired)
        (pr : NormalizedPaymentRequired) (payload : PaymentPayload)
        (ph : HMap) (k v : String),
      env.firstFetch = .resp r → r.status = 402 →
      env.getPaymentRequired r.json.toOption = .ok rawPR →
      normalizePaymentRequired rawPR = .ok pr →
      env.createPaymentPayload rawPR = .ok payload →
      env.encodePaymentSignatureHeader payload = .ok ph →
      (ph.map Prod.fst).Nodup →
      hget ph k = some v →
      hasKey env.headers k = false →
      ∃ sh, (makeRequest env).2.paidHeaders = some sh ∧ hget sh k = some v) := by
  constructor
  · intro env w r rawPR pr info payload hw hf h402 hg hn he hv hc hcp hnk
    have h402b : (r.status == 402) = true := by simpa using h402
    have hin2 : (innerAuth env).2 =
        { signerInvoked := true
          sentHeaders := some (hmerge
            [ ("Content-Type", "application/json")
            , ("SIGN-IN-WITH-X", env.encodeSIWxHeader payload) ] env.headers) } := by
      unfold innerAuth
      rw [hw, hf]
      simp only [h402b, Bool.not_true, Bool.false_eq_true, if_false, hg, hn, he, hv,
        hcp, hc, beq_self_eq_true, if_true]
      cases env.secondFetch with
      | err m => rfl
      | resp r2 =>
        by_cases hro : (!r2.isOk) = true
        · simp only [hro, if_true]
          cases readErrData r2 <;> rfl
        · have hro' : (!r2.isOk) = false := by
            cases h : !r2.isOk
            · rfl
            · exact absurd h hro
          simp only [hro', Bool.false_eq_true, if_false]
          cases readOkData r2 <;> rfl
    refine ⟨_, by rw [authedCall_snd, hin2], ?_⟩
    rw [hget_hmerge_of_not_key _ _ _ hnk]
    simp [hget, show (("Content-Type" : String) == "SIGN-IN-WITH-X") = false from rfl]
  · intro env r rawPR pr payload ph k v hf h402 hg hn hcp he hnd hk hnk
    have h402b : (r.status == 402) = true := by simpa using h402
    have ht : (makeRequest env).2 =
        { paidHeaders := some (hmerge
            (hmerge [("Content-Type", "application/json")] ph) env.headers) } := by
      unfold makeRequest
      rw [hf]
      simp only [h402b, if_true, hg, hn, hcp, he]
      cases env.secondFetch with
      | err m => rfl
      | resp r2 =>
        by_cases hro : (!r2.isOk) = true
        · simp only [hro, if_true]
          cases r2.text <;> rfl
        · have hro' : (!r2.isOk) = false := by
            cases h : !r2.isOk
            · rfl
            · exact absurd h hro
          simp only [hro', Bool.false_eq_true, if_false]
          cases r2.json with
          | ok d => rfl
          | error e2 => cases r2.text <;> rfl
    refine ⟨_, by rw [ht], ?_⟩
    rw [hget_hmerge_of_not_key _ _ _ hnk]
    exact hget_hmerge_of_mem_nodup ph _ k v hnd hk

/-- A negotiation environment whose encoder emits a PAYMENT header and
whose caller headers do not name it. -/
def envC4m : MREnv :=
  { firstFetch := .resp respC3
    getPaymentRequired := fun _ => .ok prOkV2
    createPaymentPayload := fun _ => .ok payloadC3
    encodePaymentSignatureHeader := fun _ => .ok [("PAYMENT", "sig")]
    secondFetch := .err "nope"
    getPaymentSettle := .error "unused"
    headers := [("X-Extra", "1")] }

/-- The normalized image of the EVM-challenge body. -/
def normPrEvm : NormalizedPaymentRequired :=
  { x402Version := 2, error := none, accepts := [v2body reqV2ok]
    extensions := some [("sign-in-with-x", { info := some infoEvm })] }

/-- C4 witness: the merge theorem at concrete environments whose
caller maps do not name the protocol headers. -/
theorem retry_header_merge_witness :
    (∃ sh, (authedCall (authEnvWith infoEvm [("X-Extra", "1")])).2.sentHeaders = some sh ∧
      hget sh "SIGN-IN-WITH-X" =
        some ((authEnvWith infoEvm [("X-Extra", "1")]).encodeSIWxHeader "tok")) ∧
    (∃ sh, (makeRequest envC4m).2.paidHeaders = some sh ∧ hget sh "PAYMENT" = some "sig") :=
  ⟨retry_header_merge.1 (authEnvWith infoEvm [("X-Extra", "1")])
      { address := "0xme" } resp402 (prWithInfo infoEvm) normPrEvm infoEvm "tok"
      rfl rfl rfl rfl rfl rfl rfl rfl rfl (by decide),
   retry_header_merge.2 envC4m respC3 prOkV2 normPrOkV2 payloadC3
      [("PAYMENT", "sig")] "PAYMENT" "sig"
      rfl rfl rfl rfl rfl rfl (by decide) (by decide) (by decide)⟩

/-! ## Claim C5 -/

/-- C5 counterexample: a challenge on the Cosmos namespace — non-EVM,
but not Solana-prefixed — is not rejected: the signer is invoked, a
second request is issued, and the call returns a success, contradicting
"any non-EVM namespace is rejected without signing". -/
theorem non_evm_namespace_not_rejected :
    (authedCall (authEnvWith infoCosmos [])).2.signerInvoked = true ∧
    ((authedCall (authEnvWith infoCosmos [])).2.sentHeaders).isSome = true ∧
    (authedCall (authEnvWith infoCosmos [])).1 =
      .success { statusCode := 200
                 headers := []
                 data := .text "ok-data"
                 authentication := some { address := "0xme"
                                          domain := "api.example.com"
                                          chainId := "cosmos:cosmoshub-4" } } :=
  ⟨rfl, rfl, rfl⟩

/-- C5 (amended): the rejection triggers exactly on the Solana
namespace prefix: a challenge whose chainId starts with `solana:` is
answered with a terminal unsupported-chain error, with no second
network request and without invoking the signing capability; chainIds
in other non-EVM namespaces are not rejected. -/
theorem solana_rejection (env : AuthEnv) (w : Wallet) (r : HttpResponse)
    (rawPR : RawPaymentRequired) (pr : NormalizedPaymentRequired)
    (info : SIWxExtensionInfo)
    (hw : env.wallet = .ok w)
    (hf : env.firstFetch = .resp r) (h402 : r.status = 402)
    (hg : env.getPaymentRequired r.json.toOption = .ok rawPR)
    (hn : normalizePaymentRequired rawPR = .ok pr)
    (he : (extLookup (pr.extensions.getD []) "sign-in-with-x").bind ExtValue.info
            = some info)
    (hv : siwxRequiredFields.filter (fun f => !truthy (info.fieldVal f)) = [])
    (hc : strStartsWith (info.chainId.getD "") "solana:" = true) :
    authedCall env =
      (.error "Solana authentication not supported"
          { chainId := some (info.chainId.getD "") },
        { signerInvoked := false, sentHeaders := none }) := by
  have h402b : (r.status == 402) = true := by simpa using h402
  have hin : innerAuth env =
      (.ok (.error "Solana authentication not supported"
          { chainId := some (info.chainId.getD "") }), {}) := by
    unfold innerAuth
    rw [hw, hf]
    simp only [h402b, Bool.not_true, Bool.false_eq_true, if_false, hg, hn, he, hv,
      beq_self_eq_true, if_true, hc]
  unfold authedCall
  rw [hin]

/-- An authentication environment issuing a Solana-namespace
challenge. -/
def envSolana : AuthEnv := authEnvWith infoSolana []

/-- The normalized image of the Solana-challenge body. -/
def normPrSolana : NormalizedPaymentRequired :=
  { x402Version := 2, error := none, accepts := [v2body reqV2ok]
    extensions := some [("sign-in-with-x", { info := some infoSolana })] }

/-- C5 witness: the rejection theorem at the concrete Solana
environment. -/
theorem solana_rejection_witness :
    authedCall envSolana =
      (.error "Solana authentication not supported"
          { chainId := some (infoSolana.chainId.getD "") },
        { signerInvoked := false, sentHeaders := none }) :=
  solana_rejection envSolana { address := "0xme" } resp402
    (prWithInfo infoSolana) normPrSolana infoSolana
    rfl rfl rfl rfl rfl rfl rfl rfl
